import Mathlib

/-!
Verification of the multilingual edtech backend (Node.js/Express) against its
natural-language specification.  The relevant JavaScript functions are shallowly
embedded as Lean definitions: JS strings become Lean strings (operated on via
their character lists, ASCII-faithful), JS numbers become rationals with an
explicit NaN marker where the code tests for NaN, absent JSON fields become
Option.none, and handlers become pure functions from the request data (plus the
abstracted upstream-service outcome) to a pair of HTTP status and response body.
-/

namespace EdTech

/- ### JavaScript string primitives

Character-list models of the string operations the source uses: the whitespace
class of regex \s and of String.prototype.trim (modelled on its ASCII part),
substring containment (String.prototype.includes), and the pieces of the
regex-based section parsing in services/grammarService.js. -/

/-- ASCII whitespace as matched by the \s character class and trimmed by
String.prototype.trim in the source. -/
def wsB (c : Char) : Bool :=
  c = ' ' || c = '\t' || c = '\n' || c = '\r' || c = '\x0b' || c = '\x0c'

/-- Model of String.prototype.trim on a character list: drop whitespace from
both ends. -/
def trimChars (l : List Char) : List Char :=
  List.rdropWhile wsB (List.dropWhile wsB l)

/-- Model of String.prototype.trim. -/
def trimStr (s : String) : String :=
  String.mk (trimChars s.data)

/-- Model of String.prototype.toLowerCase on the ASCII inputs the code
compares against. -/
def lowerStr (s : String) : String :=
  String.mk (s.data.map Char.toLower)

/-- pat occurs as a contiguous block somewhere in the list (the substring test
behind String.prototype.includes). -/
def occursB (pat : List Char) : List Char → Bool
  | [] => pat.isEmpty
  | c :: t => pat.isPrefixOf (c :: t) || occursB pat t

/-- Model of s.includes(pat). -/
def containsSub (s pat : String) : Bool :=
  occursB pat.data s.data

/-- Remainder of the list after the first occurrence of pat; none when pat
does not occur.  This models how a regex anchored on a literal label finds its
match position. -/
def findLabel (pat : List Char) : List Char → Option (List Char)
  | [] => if pat.isEmpty then some [] else none
  | c :: t =>
    if pat.isPrefixOf (c :: t) then some ((c :: t).drop pat.length)
    else findLabel pat t

/-- Longest prefix that stops at the first occurrence of pat (the whole list
when pat does not occur).  This models a lazy capture group bounded by the
lookahead (?=pat|$) in a dotall regex. -/
def captureUntil (pat : List Char) : List Char → List Char
  | [] => []
  | c :: t =>
    if pat.isPrefixOf (c :: t) then []
    else c :: captureUntil pat t

/-- pat starts at some position strictly inside xs when scanning xs ++ ys
(helper predicate used to reason about where label searches can match). -/
def startsIn (pat : List Char) : List Char → List Char → Bool
  | [], _ => false
  | c :: t, ys => pat.isPrefixOf (c :: t ++ ys) || startsIn pat t ys

/-- Model of s.split(<newline>): split on each newline occurrence.  The core
List.splitOn has exactly the JavaScript semantics on a one-character
separator. -/
def splitNl (l : List Char) : List (List Char) :=
  l.splitOn '\n'

/-- Join lines back with newline separators (inverse direction of splitNl). -/
def joinNl (ls : List (List Char)) : List Char :=
  List.intercalate ['\n'] ls

/-- The filter(c => c.trim()) step: keep the lines whose trimmed form is a
nonempty (truthy) string. -/
def keepNonBlank (ls : List (List Char)) : List (List Char) :=
  ls.filter (fun ln => !(trimChars ln).isEmpty)

/-- Model of s.split(<ws run>) as performed by split(/\s+/): separators are
maximal nonempty whitespace runs; a leading or trailing run contributes an
empty piece, exactly as in JavaScript. -/
def splitWs : List Char → List (List Char)
  | [] => [[]]
  | c :: t =>
    if wsB c then [] :: splitWs (List.dropWhile wsB t)
    else
      match splitWs t with
      | [] => [[c]]
      | p :: ps => (c :: p) :: ps
termination_by l => l.length
decreasing_by
  all_goals simp_wf
  all_goals have := (List.dropWhile_suffix (l := t) wsB).sublist.length_le
  all_goals omega

/- ### JavaScript truthiness helpers

The || operator treats the number 0 and the empty string as absent. -/

/-- a || b for an optional number: 0 falls through like undefined. -/
def jsOrQ (a : Option ℚ) (b : ℚ) : ℚ :=
  match a with
  | some q => if q = 0 then b else q
  | none => b

/-- a || b for an optional string: the empty string falls through like
undefined. -/
def jsOrS (a : Option String) (b : String) : String :=
  match a with
  | some x => if x = "" then b else x
  | none => b

/- ### Language registry

Three partial language resolvers appear in the source; none of them is the
single total resolve function of the spec.  All are embedded verbatim. -/

/-- The languageCodes table of services/chatService.js (full name to short
code). -/
def languageCodesLookup (s : String) : Option String :=
  if s = "hindi" then some "hi"
  else if s = "punjabi" then some "pa"
  else if s = "english" then some "en"
  else none

/-- ChatService.getLanguageCode: lowercase the input, look it up in the
languageCodes table, and fall back to en for anything unrecognized
(this.languageCodes[normalizedLanguage] || 'en'). -/
def getLanguageCode (language : String) : String :=
  (languageCodesLookup (lowerStr language)).getD "en"

/-- The languageMap table of controllers/grammarController.js (short code to
full name). -/
def languageMap (s : String) : Option String :=
  if s = "en" then some "english"
  else if s = "hi" then some "hindi"
  else if s = "pa" then some "punjabi"
  else none

/-- Membership in the prompts table of services/grammarService.js, which keys
grammar prompts by full language name. -/
def promptsHas (s : String) : Bool :=
  s = "hindi" || s = "punjabi" || s = "english"

/-- The supported short codes checked by the controllers. -/
def supportedShortCodes : List String := ["en", "hi", "pa"]

/- ### GrammarService: section parsing, serialization template, confidence -/

/-- The three fields GrammarService.parseGrammarResponse extracts from the raw
model output. -/
structure ParsedGrammar where
  corrected : String
  changes : List String
  suggestions : List String
  deriving DecidableEq, Repr

/-- GrammarService.parseGrammarResponse.  Each field mirrors one regex of the
source.  corrected: the dotall capture after the CORRECTED: label up to the
next CHANGES: label or the end of the string, then .trim,
falling back to the WHOLE trimmed response when the label is absent.
changes and suggestions: analogous captures, then .trim().split(newline)
.filter(line => line.trim()), falling back to the empty list when absent. -/
def parseGrammarResponse (response : String) : ParsedGrammar :=
  let r := response.data
  let corrected :=
    match findLabel "CORRECTED:".data r with
    | some rest => trimChars (captureUntil "CHANGES:".data (List.dropWhile wsB rest))
    | none => trimChars r
  let changes :=
    match findLabel "CHANGES:".data r with
    | some rest =>
      keepNonBlank (splitNl (trimChars (captureUntil "SUGGESTIONS:".data
        (List.dropWhile wsB rest))))
    | none => []
  let suggestions :=
    match findLabel "SUGGESTIONS:".data r with
    | some rest => keepNonBlank (splitNl (trimChars (List.dropWhile wsB rest)))
    | none => []
  { corrected := String.mk corrected
    changes := changes.map String.mk
    suggestions := suggestions.map String.mk }

/-- The response template requested by GrammarService.buildGrammarPrompt
(CORRECTED / CHANGES / SUGGESTIONS labelled lines). -/
def serializeGrammar (corrected changes suggestions : String) : String :=
  "CORRECTED: " ++ corrected ++ "\nCHANGES: " ++ changes
    ++ "\nSUGGESTIONS: " ++ suggestions

/-- Re-join a parsed line list for re-serialization into the template. -/
def joinLines (ls : List String) : String :=
  String.mk (joinNl (ls.map String.data))

/-- GrammarService.calculateSimilarity: word-overlap ratio between the
lowercased whitespace-split word lists. -/
def calculateSimilarity (text1 text2 : String) : ℚ :=
  let words1 := splitWs (lowerStr text1).data
  let words2 := splitWs (lowerStr text2).data
  let inter := words1.filter (fun w => words2.contains w)
  (inter.length : ℚ) / (max words1.length words2.length : ℚ)

/-- GrammarService.calculateConfidence: similarity minus half the relative
length difference, clamped into [0, 1] by Math.max/Math.min. -/
def calculateConfidence (original corrected : String) : ℚ :=
  let similarity := calculateSimilarity original corrected
  let lengthDifference :=
    |(original.data.length : ℚ) - (corrected.data.length : ℚ)| /
      (max original.data.length corrected.data.length : ℚ)
  max 0 (min 1 (similarity - lengthDifference * (1 / 2)))

/-- The loose upstream-shaped record grammarService.correctGrammar resolves
with, as read by the controller through optional-field access: a missing JSON
field is none (for the two list fields, none also covers any non-array value,
matching the Array.isArray tests). -/
structure LooseGrammarResult where
  original : Option String := none
  corrected : Option String := none
  correctedText : Option String := none
  errors : Option (List String) := none
  changes : Option (List String) := none
  suggestions : Option (List String) := none
  overallScore : Option ℚ := none
  confidence : Option ℚ := none
  readabilityScore : Option ℚ := none
  wordCount : Option ℚ := none
  processingTime : Option ℚ := none
  deriving DecidableEq, Repr

/-- GrammarService.correctGrammar, with the network call abstracted: upstream
is the outcome of model.generateContent / response.text() (ok carries the raw
model output).  Thrown failures are re-thrown with the documented prefix. -/
def correctGrammar (text language : String) (upstream : Except String String) :
    Except String LooseGrammarResult :=
  if (trimChars text.data).isEmpty then
    .error "Grammar correction failed: Input text is required"
  else
    let normalizedLanguage := lowerStr language
    if !promptsHas normalizedLanguage then
      .error ("Grammar correction failed: Unsupported language: " ++ language
        ++ ". Supported: hindi, punjabi, english")
    else
      match upstream with
      | .error m => .error ("Grammar correction failed: " ++ m)
      | .ok raw =>
        let parsedResult := parseGrammarResponse raw
        .ok { original := some text
              corrected := some parsedResult.corrected
              changes := some parsedResult.changes
              confidence := some (calculateConfidence text parsedResult.corrected)
              suggestions := some parsedResult.suggestions }

/- ### OCR adapter normalization (the cited copy of services/ocrServices.js) -/

/-- A JavaScript number as the OCR/speech payloads can carry it: NaN or a
finite value (finite values modelled as rationals). -/
inductive JsNum where
  | nan : JsNum
  | num (q : ℚ) : JsNum
  deriving DecidableEq, Repr

/-- Number.prototype.toFixed(2) then parseFloat: round to two decimal places
(ties toward the larger candidate, as the toFixed specification picks). -/
def round2 (q : ℚ) : ℚ := (⌊q * 100 + 1 / 2⌋ : ℤ) / 100

/-- The confidence field of OCRService.extractTextFromImage:
isNaN(c) ? null : parseFloat(c.toFixed(2)).  No clamping is performed. -/
def ocrConfidence : JsNum → Option ℚ
  | .nan => none
  | .num q => some (round2 q)

/-- Script-range language detection shared by the OCR and speech services:
any Devanagari code point means hindi, else any Gurmukhi code point means
punjabi, else english. -/
def detectPrimaryLanguage (text : String) : String :=
  if text.data.any (fun c => 0x0900 ≤ c.toNat && c.toNat ≤ 0x097F) then "hindi"
  else if text.data.any (fun c => 0x0A00 ≤ c.toNat && c.toNat ≤ 0x0A7F) then "punjabi"
  else "english"

/- ### Speech adapter normalization (services/speechService.js) -/

/-- One word record of an upstream speech alternative (startTime/endTime
carry their seconds component when present). -/
structure SpeechWordIn where
  word : String
  startSeconds : Option ℚ := none
  endSeconds : Option ℚ := none
  confidence : JsNum
  deriving DecidableEq, Repr

/-- The normalized word record built inside SpeechService.transcribeAudio. -/
structure SpeechWordOut where
  word : String
  startTime : ℚ
  endTime : ℚ
  confidence : JsNum
  deriving DecidableEq, Repr

/-- The per-word mapping of SpeechService.transcribeAudio: timestamps default
to 0 (seconds || 0), the confidence is passed through unmodified. -/
def normalizeSpeechWord (w : SpeechWordIn) : SpeechWordOut :=
  { word := w.word
    startTime := match w.startSeconds with | some q => q | none => 0
    endTime := match w.endSeconds with | some q => q | none => 0
    confidence := w.confidence }

/-- One upstream recognition alternative (the alternatives[0] of a result). -/
structure SpeechAltIn where
  transcript : String
  confidence : JsNum
  words : Option (List SpeechWordIn) := none
  deriving DecidableEq, Repr

/-- The normalized per-segment record of SpeechService.transcribeAudio:
transcript and confidence pass through unmodified, words default to []. -/
structure SpeechAltOut where
  transcript : String
  confidence : JsNum
  words : List SpeechWordOut
  deriving DecidableEq, Repr

/-- The segment mapping of SpeechService.transcribeAudio: keep the first
alternatives with a truthy (nonempty) transcript, copy confidence unchanged,
normalize the word list (words?.map(...) || []). -/
def normalizeTranscription (alts : List SpeechAltIn) : List SpeechAltOut :=
  (alts.filter (fun a => a.transcript ≠ "")).map fun a =>
    { transcript := a.transcript
      confidence := a.confidence
      words := (a.words.getD []).map normalizeSpeechWord }

/-- SpeechService.calculateTotalDuration: running maximum of word end times
over all segments, starting from 0. -/
def calculateTotalDuration (ts : List SpeechAltOut) : ℚ :=
  ts.foldl (fun acc t =>
    t.words.foldl (fun m w => if m < w.endTime then w.endTime else m) acc) 0

/- ### Grammar controller (controllers/grammarController.js) -/

/-- The data object of a successful checkGrammar response (statistics fields
inlined with their JSON names). -/
structure GrammarData where
  originalText : String
  correctedText : String
  errors : List String
  suggestions : List String
  overallScore : ℚ
  language : String
  checkType : String
  totalErrors : Nat
  readabilityScore : ℚ
  wordCount : ℚ
  processingTime : ℚ
  deriving DecidableEq, Repr

/-- A checkGrammar response body.  Every JSON key the handler can emit is an
optional field; none models the key being absent from the body (in particular
statusCode, which no handler of the source ever writes).  hasErrorsArray
records whether the express-validator errors array was attached. -/
structure GrammarBody where
  success : Option Bool := none
  message : Option String := none
  data : Option GrammarData := none
  error : Option String := none
  hasErrorsArray : Bool := false
  statusCode : Option Nat := none
  deriving DecidableEq, Repr

/-- The request data checkGrammar destructures: validationOk abstracts the
express-validator outcome; language and checkType are none when the JSON
omitted them (destructuring defaults then apply). -/
structure GrammarReq where
  validationOk : Bool := true
  text : String
  language : Option String := none
  checkType : Option String := none
  deriving DecidableEq, Repr

/-- The catch block of checkGrammar: classify the thrown message by lowercase
substring tests in source order, then build the response (error detail only
in development mode, and only on the 500 path). -/
def grammarCatch (msg : String) (dev : Bool) : Nat × GrammarBody :=
  if containsSub (lowerStr msg) "unsupported language" then
    (400, { success := some false
            message := some "Language not supported by grammar service." })
  else if containsSub (lowerStr msg) "quota" then
    (429, { success := some false
            message := some "Grammar check quota exceeded. Please try again later." })
  else
    (500, { success := some false
            message := some "Internal server error during grammar check."
            error := if dev then some msg else none })

/-- The supported checkType enum of the controller. -/
def supportedCheckTypes : List String :=
  ["comprehensive", "spelling", "grammar", "punctuation", "style"]

/-- grammarController.checkGrammar as a pure function: request data plus the
outcome of the awaited grammarService.correctGrammar call (only consulted
after all inline validations pass) plus the development-mode flag, returning
the HTTP status and the JSON body.  Validation order, messages, and the
fallback chains of the success path mirror the source line by line. -/
def checkGrammar (req : GrammarReq) (svc : Except String LooseGrammarResult)
    (dev : Bool) : Nat × GrammarBody :=
  if !req.validationOk then
    (400, { success := some false, message := some "Validation failed"
            hasErrorsArray := true })
  else if (trimChars req.text.data).isEmpty then
    (400, { success := some false
            message := some "Text is required for grammar checking." })
  else if 5000 < req.text.data.length then
    (400, { success := some false
            message := some "Text exceeds maximum length of 5000 characters." })
  else
    let language := req.language.getD "en"
    if !supportedShortCodes.contains (lowerStr language) then
      (400, { success := some false
              message := some "Unsupported language. Supported languages: English (en), Hindi (hi), Punjabi (pa)" })
    else
      let checkType := req.checkType.getD "comprehensive"
      if !supportedCheckTypes.contains checkType then
        (400, { success := some false
                message := some "Invalid check type. Supported types: comprehensive, spelling, grammar, punctuation, style" })
      else
        match languageMap (lowerStr language) with
        | none =>
          (400, { success := some false
                  message := some "Unsupported language. Supported languages: English (en), Hindi (hi), Punjabi (pa)" })
        | some _ =>
          match svc with
          | .error m => grammarCatch m dev
          | .ok result =>
            let errors := match result.errors with
              | some l => l
              | none => result.changes.getD []
            let suggestions := result.suggestions.getD []
            let overallScore := jsOrQ result.overallScore (jsOrQ result.confidence 0)
            (200, { success := some true
                    message := some "Grammar check completed successfully."
                    data := some
                      { originalText := jsOrS result.original req.text
                        correctedText := jsOrS result.corrected
                          (jsOrS result.correctedText "")
                        errors := errors
                        suggestions := suggestions
                        overallScore := overallScore
                        language := language
                        checkType := checkType
                        totalErrors := errors.length
                        readabilityScore := jsOrQ result.readabilityScore 0
                        wordCount := jsOrQ result.wordCount 0
                        processingTime := jsOrQ result.processingTime 0 } })

/-- Outcome of batchGrammarCheck before/at the upstream boundary: halt is an
early validation response (no adapter call was made); callService records that
grammarService.batchGrammarCheck was invoked with these arguments. -/
inductive BatchOutcome where
  | halt (status : Nat) (message : String)
  | callService (texts : List String) (language checkType : String)
  deriving DecidableEq, Repr

/-- The per-item validation loop of batchGrammarCheck: first index whose text
is falsy/blank after trimming or longer than 2000 characters, with the exact
indexed message the source builds. -/
def validateBatchItems : List String → Nat → Option (Nat × String)
  | [], _ => none
  | t :: rest, i =>
    if (trimChars t.data).isEmpty then
      some (i, "Text at index " ++ toString i ++ " is empty or invalid")
    else if 2000 < t.data.length then
      some (i, "Text at index " ++ toString i
        ++ " exceeds maximum length of 2000 characters for batch processing")
    else validateBatchItems rest (i + 1)

/-- grammarController.batchGrammarCheck up to the upstream call: texts is
none when the body field is not an array (the Array.isArray test).  The
validations run in source order and each stops the handler with a 400. -/
def batchGrammarCheck (validationOk : Bool) (texts : Option (List String))
    (language checkType : Option String) : BatchOutcome :=
  if !validationOk then .halt 400 "Validation failed"
  else
    match texts with
    | none => .halt 400 "Array of texts is required for batch processing"
    | some ts =>
      if ts.isEmpty then .halt 400 "Array of texts is required for batch processing"
      else if 20 < ts.length then
        .halt 400 "Maximum 20 texts allowed for batch processing"
      else
        match validateBatchItems ts 0 with
        | some (_, msg) => .halt 400 msg
        | none => .callService ts (language.getD "en") (checkType.getD "comprehensive")

/- ### The catch classifiers of the OCR, speech, and chat controllers -/

/-- A failure response body shared by the simple catch blocks (no data). -/
structure FailBody where
  success : Option Bool := some false
  message : Option String := none
  error : Option String := none
  statusCode : Option Nat := none
  deriving DecidableEq, Repr

/-- The catch block of ocrController.extractText: quota is tested first, then
invalid image, else 500. -/
def ocrCatch (msg : String) (dev : Bool) : Nat × FailBody :=
  if containsSub msg "quota exceeded" then
    (429, { message := some "OCR service quota exceeded. Please try again later." })
  else if containsSub msg "invalid image" then
    (400, { message := some "Invalid or corrupted image file" })
  else
    (500, { message := some "Internal server error during text extraction"
            error := if dev then some msg else none })

/-- The catch block of speechController.evaluatePronunciation: audio too
short, audio too long, and no speech detected are all tested before quota. -/
def speechCatch (msg : String) (dev : Bool) : Nat × FailBody :=
  if containsSub msg "audio too short" then
    (400, { message := some "Audio recording is too short. Minimum duration: 1 second" })
  else if containsSub msg "audio too long" then
    (400, { message := some "Audio recording is too long. Maximum duration: 5 minutes" })
  else if containsSub msg "no speech detected" then
    (400, { message := some "No clear speech detected in the audio recording" })
  else if containsSub msg "quota exceeded" then
    (429, { message := some "Speech evaluation quota exceeded. Please try again later." })
  else
    (500, { message := some "Internal server error during pronunciation evaluation"
            error := if dev then some msg else none })

/-- The catch block of the chat controller sendMessage: session expired is
tested before quota, then inappropriate content, else 500. -/
def chatCatch (msg : String) (dev : Bool) : Nat × FailBody :=
  if containsSub msg "session expired" then
    (401, { message := some "Chat session expired. Please start a new session." })
  else if containsSub msg "quota exceeded" then
    (429, { message := some "Chat service quota exceeded. Please try again later." })
  else if containsSub msg "inappropriate content" then
    (400, { message := some "Message contains inappropriate content and cannot be processed" })
  else
    (500, { message := some "Internal server error during chat processing"
            error := if dev then some msg else none })

/- ### Chat service state (services/chatService.js) -/

/-- One entry of a conversation history (the object literal built by
ChatService.updateConversationContext; the ISO timestamp string carries no
information the claims depend on and is omitted from the record). -/
structure ChatMessageEntry where
  userMessage : String
  botResponse : String
  intent : String
  confidence : ℚ
  subject : Option String := none
  deriving DecidableEq, Repr

/-- A per-session conversation context of the in-memory activeContexts map
(timestamps and the preferences object are omitted: no claim reads them). -/
structure ConversationContext where
  sessionId : String
  messages : List ChatMessageEntry := []
  subjects : List String := []
  deriving DecidableEq, Repr

/-- ChatService.createNewContext: fresh context with empty history and
subject list. -/
def createNewContext (sessionId : String) : ConversationContext :=
  { sessionId := sessionId }

/-- ChatService.updateConversationContext on one context: push the entry,
record an unseen subject, and keep only the last 50 messages
(messages.slice(-50) whenever the history exceeds 50). -/
def updateConversationContext (context : ConversationContext)
    (e : ChatMessageEntry) : ConversationContext :=
  let ms := context.messages ++ [e]
  let ms := if 50 < ms.length then ms.drop (ms.length - 50) else ms
  let subjects := match e.subject with
    | some s => if context.subjects.contains s then context.subjects
                else context.subjects ++ [s]
    | none => context.subjects
  { context with messages := ms, subjects := subjects }

/-- The result object of ChatService.getConversationHistory.  The three
fields after totalMessages are present only when a stored context was found;
none models their absence from the unknown-session result. -/
structure HistoryResult where
  success : Bool
  sessionId : String
  history : List ChatMessageEntry
  totalMessages : Nat
  subjects : Option (List String) := none
  deriving DecidableEq, Repr

/-- ChatService.getConversationHistory with the activeContexts map modelled
as an association list: an unknown session yields a success result with an
empty history rather than a failure. -/
def getConversationHistory (activeContexts : List (String × ConversationContext))
    (sessionId : String) : HistoryResult :=
  match activeContexts.lookup sessionId with
  | none =>
    { success := true, sessionId := sessionId, history := [], totalMessages := 0 }
  | some context =>
    { success := true, sessionId := sessionId
      history := context.messages
      totalMessages := context.messages.length
      subjects := some context.subjects }

/- ### Chat controller and route (part of the cited chat controller file,
routes/chat.js) -/

/-- The handlers routes/chat.js can dispatch a chat request to. -/
inductive ChatHandler where
  | sendMessage | continueSession | getChatHistory
  | createSession | deleteSession | getUserSessions
  deriving DecidableEq, Repr

/-- The POST routing of routes/chat.js by path segments below /api/chat:
the bare /session path is bound to chatController.createSession. -/
def chatPostRoute : List String → Option ChatHandler
  | [] => some .sendMessage
  | ["session"] => some .createSession
  | ["session", _] => some .continueSession
  | _ => none

/-- The body of a createSession response (the stub sends only message). -/
structure StubBody where
  success : Option Bool := none
  message : Option String := none
  statusCode : Option Nat := none
  deriving DecidableEq, Repr

/-- chatController.createSession: an unimplemented stub that answers 501 with
a bare message body for every request, reading none of the input. -/
def createSession : Nat × StubBody :=
  (501, { message := some "Not Implemented" })

/-- Outcome of chatController.startChatSession before/at the service
boundary: halt is an early validation response; callStartNewSession records
that chatService.startNewSession would be invoked with these arguments (no
such method exists on the chat service, so in the source this call throws and
the catch block answers 500). -/
inductive SessionOutcome where
  | halt (status : Nat) (message : String)
  | callStartNewSession (language sessionType userLevel : String)
  deriving DecidableEq, Repr

/-- chatController.startChatSession up to the service call: destructuring
defaults, then the supported-language list (no lowercasing here), then the
session-type enum, in source order. -/
def startChatSession (validationOk : Bool)
    (language sessionType userLevel : Option String) : SessionOutcome :=
  if !validationOk then .halt 400 "Validation failed"
  else
    let lang := language.getD "en"
    if !supportedShortCodes.contains lang then
      .halt 400 "Unsupported language. Supported languages: English (en), Hindi (hi), Punjabi (pa)"
    else
      let sessionType := sessionType.getD "general"
      if !(["general", "grammar_focused", "pronunciation_focused",
            "writing_help"].contains sessionType) then
        .halt 400 "Invalid session type. Supported types: general, grammar_focused, pronunciation_focused, writing_help"
      else .callStartNewSession lang sessionType (userLevel.getD "intermediate")

/- ### Well-formedness of a grammar-model output block

The documented response convention is the template of serializeGrammar.  A
block following it is well-formed when each section has content (nonempty,
no surrounding whitespace), no section smuggles in a later label, and the two
line-list sections contain no blank lines (which the parser would discard). -/

/-- A section with content: nonempty and fixed by trim. -/
def sectionOk (x : List Char) : Bool :=
  !x.isEmpty && (trimChars x == x)

/-- No line of the section is blank (the parser filter keeps every line). -/
def noBlankLines (l : List Char) : Bool :=
  (splitNl l).all (fun ln => !(trimChars ln).isEmpty)

/-- Well-formed section triple for the CORRECTED/CHANGES/SUGGESTIONS
template. -/
def wellFormedSections (c ch s : String) : Bool :=
  sectionOk c.data && sectionOk ch.data && sectionOk s.data
  && !occursB "CHANGES:".data c.data
  && !occursB "SUGGESTIONS:".data c.data
  && !occursB "SUGGESTIONS:".data ch.data
  && noBlankLines ch.data && noBlankLines s.data

/- ### Shared lemmas about the string primitives -/

theorem isPrefixOf_append_self (l t : List Char) :
    l.isPrefixOf (l ++ t) = true := by
  simp [List.isPrefixOf_iff_prefix]

/-- A prefix that cannot contain the newline separator is confined to the
part before it. -/
theorem isPrefixOf_of_before_nl (pat : List Char) (hnl : '\n' ∉ pat) :
    ∀ u v : List Char, pat.isPrefixOf (u ++ '\n' :: v) = true →
      pat.isPrefixOf u = true := by
  induction pat with
  | nil => intro u v _; simp [List.isPrefixOf]
  | cons p pt ih =>
    intro u v h
    cases u with
    | nil =>
      rw [List.nil_append, List.isPrefixOf_cons₂] at h
      have hp : p = '\n' := by
        have := (Bool.and_eq_true ..).mp h |>.1
        exact eq_of_beq this
      exact absurd (hp ▸ List.mem_cons_self p pt) hnl
    | cons a ut =>
      rw [List.cons_append, List.isPrefixOf_cons₂, Bool.and_eq_true] at h
      have hnl' : '\n' ∉ pt := fun hm => hnl (List.mem_cons_of_mem _ hm)
      have := ih hnl' ut v h.2
      rw [List.isPrefixOf_cons₂, Bool.and_eq_true]
      exact ⟨h.1, this⟩

/-- If pat is fully absent from u and cannot span the trailing newline, it
cannot start anywhere inside u ++ newline. -/
theorem startsIn_eq_false_of_not_occurs (pat : List Char) (hne : pat ≠ [])
    (hnl : '\n' ∉ pat) :
    ∀ u ys : List Char, occursB pat u = false →
      startsIn pat (u ++ ['\n']) ys = false := by
  intro u
  induction u with
  | nil =>
    intro ys _
    show (pat.isPrefixOf ('\n' :: ys) || startsIn pat [] ys) = false
    rw [startsIn]
    cases pat with
    | nil => exact absurd rfl hne
    | cons p pt =>
      rw [List.isPrefixOf_cons₂]
      have : (p == '\n') = false := by
        cases hb : p == '\n'
        · rfl
        · exact absurd ((eq_of_beq hb) ▸ List.mem_cons_self p pt) hnl
      simp [this]
  | cons a u' ih =>
    intro ys hocc
    rw [occursB, Bool.or_eq_false_iff] at hocc
    show (pat.isPrefixOf (a :: (u' ++ ['\n']) ++ ys) || startsIn pat (u' ++ ['\n']) ys)
        = false
    rw [Bool.or_eq_false_iff]
    refine ⟨?_, ih ys hocc.2⟩
    cases hb : pat.isPrefixOf (a :: (u' ++ ['\n']) ++ ys)
    · rfl
    · have hsh : pat.isPrefixOf ((a :: u') ++ '\n' :: ys) = true := by
        simpa [List.append_assoc] using hb
      have := isPrefixOf_of_before_nl pat hnl (a :: u') ys hsh
      rw [this] at hocc
      exact absurd hocc.1 (by simp)

/-- startsIn distributes over an appended scan region. -/
theorem startsIn_append (pat u v ys : List Char) :
    startsIn pat (u ++ v) ys =
      (startsIn pat u (v ++ ys) || startsIn pat v ys) := by
  induction u with
  | nil => simp [startsIn]
  | cons a u' ih =>
    show (pat.isPrefixOf (a :: (u' ++ v) ++ ys) || startsIn pat (u' ++ v) ys) = _
    rw [ih]
    show _ = ((pat.isPrefixOf (a :: u' ++ (v ++ ys)) || startsIn pat u' (v ++ ys))
      || startsIn pat v ys)
    rw [Bool.or_assoc]
    simp [List.append_assoc]

/-- findLabel skips over a region where pat cannot start. -/
theorem findLabel_append_of_startsIn_false (pat u ys : List Char)
    (h : startsIn pat u ys = false) :
    findLabel pat (u ++ ys) = findLabel pat ys := by
  induction u with
  | nil => simp
  | cons a u' ih =>
    rw [startsIn, Bool.or_eq_false_iff] at h
    show findLabel pat (a :: (u' ++ ys)) = _
    rw [findLabel]
    rw [show a :: (u' ++ ys) = a :: u' ++ ys from rfl, h.1]
    simpa using ih h.2

/-- captureUntil copies a region where pat cannot start. -/
theorem captureUntil_append_of_startsIn_false (pat u ys : List Char)
    (h : startsIn pat u ys = false) :
    captureUntil pat (u ++ ys) = u ++ captureUntil pat ys := by
  induction u with
  | nil => simp
  | cons a u' ih =>
    rw [startsIn, Bool.or_eq_false_iff] at h
    show captureUntil pat (a :: (u' ++ ys)) = _
    rw [captureUntil]
    rw [show a :: (u' ++ ys) = a :: u' ++ ys from rfl, h.1]
    simpa using ih h.2

/-- captureUntil stops immediately at a match. -/
theorem captureUntil_of_isPrefixOf (pat ys : List Char)
    (h : pat.isPrefixOf ys = true) : captureUntil pat ys = [] := by
  cases ys with
  | nil => rfl
  | cons c t => rw [captureUntil, h]; rfl

/-- findLabel fires immediately at a match. -/
theorem findLabel_of_isPrefixOf (pat ys : List Char) (hne : pat ≠ [])
    (h : pat.isPrefixOf ys = true) :
    findLabel pat ys = some (ys.drop pat.length) := by
  cases ys with
  | nil =>
    cases pat with
    | nil => exact absurd rfl hne
    | cons p pt => simp [List.isPrefixOf] at h
  | cons c t => rw [findLabel, h]; rfl

/-- occursB holds wherever a prefix match exists. -/
theorem occursB_of_isPrefixOf (pat l : List Char) (h : pat.isPrefixOf l = true) :
    occursB pat l = true := by
  cases l with
  | nil =>
    cases pat with
    | nil => rfl
    | cons p pt => simp [List.isPrefixOf] at h
  | cons c t => rw [occursB, h]; rfl

/-- occursB is preserved under extending the list on the left. -/
theorem occursB_append_left (pat u l : List Char) (h : occursB pat l = true) :
    occursB pat (u ++ l) = true := by
  induction u with
  | nil => simpa
  | cons a u' ih =>
    show (pat.isPrefixOf (a :: (u' ++ l)) || occursB pat (u' ++ l)) = true
    rw [ih]
    exact Bool.or_true _

/-- A list that survives dropWhile untouched has a non-matching head. -/
theorem head_false_of_dropWhile_eq (p : Char → Bool) (a : Char) (l : List Char)
    (h : List.dropWhile p (a :: l) = a :: l) : p a = false := by
  cases hb : p a
  · rfl
  · rw [List.dropWhile_cons, hb] at h
    have := congrArg List.length h
    have hle' : (List.dropWhile p l).length ≤ l.length :=
      (List.dropWhile_suffix (l := l) p).sublist.length_le
    simp at this
    omega

/-- dropWhile does not look past a non-matching head. -/
theorem dropWhile_append_of_head_false (p : Char → Bool) (a : Char)
    (l v : List Char) (h : p a = false) :
    List.dropWhile p (a :: l ++ v) = a :: l ++ v := by
  rw [List.cons_append, List.dropWhile_cons, h]; rfl

/-- trimChars fixes a list iff dropping from either side does nothing; both
components follow from the fixed point by length monotonicity. -/
theorem trimChars_eq_self_parts (l : List Char) (h : trimChars l = l) :
    List.dropWhile wsB l = l ∧ List.rdropWhile wsB l = l := by
  have hsfx : List.dropWhile wsB l <:+ l := List.dropWhile_suffix wsB
  have hpre : List.rdropWhile wsB (List.dropWhile wsB l) <+:
      List.dropWhile wsB l := List.rdropWhile_prefix wsB _
  have h1 : (List.dropWhile wsB l).length ≤ l.length := hsfx.sublist.length_le
  have h2 : (List.rdropWhile wsB (List.dropWhile wsB l)).length ≤
      (List.dropWhile wsB l).length := hpre.sublist.length_le
  have hlen : l.length ≤ (List.rdropWhile wsB (List.dropWhile wsB l)).length := by
    rw [show List.rdropWhile wsB (List.dropWhile wsB l) = l from h]
  have hd : List.dropWhile wsB l = l :=
    hsfx.sublist.eq_of_length (by omega)
  refine ⟨hd, ?_⟩
  have := h
  rw [trimChars, hd] at this
  exact this

/-- Trimming ignores a trailing newline once the core is trim-fixed. -/
theorem trimChars_append_nl (u : List Char) (hu : u ≠ [])
    (ht : trimChars u = u) : trimChars (u ++ ['\n']) = u := by
  obtain ⟨hd, hr⟩ := trimChars_eq_self_parts u ht
  cases u with
  | nil => exact absurd rfl hu
  | cons a u' =>
    have ha : wsB a = false := head_false_of_dropWhile_eq wsB a u' hd
    rw [trimChars, dropWhile_append_of_head_false wsB a u' ['\n'] ha]
    rw [show a :: u' ++ ['\n'] = (a :: u') ++ ['\n'] from rfl]
    rw [List.rdropWhile_concat_pos wsB (a :: u') '\n' (by decide)]
    exact hr

/-- Joining the split lines restores the original list. -/
theorem joinNl_splitNl (l : List Char) : joinNl (splitNl l) = l :=
  List.intercalate_splitOn l '\n'

/- ### Claim theorems -/

/-- C10: for every sessionId with no stored conversation context, the chat
service getConversationHistory returns a success result with an empty history
list and totalMessages equal to 0 (and no subjects field), rather than
failing or reporting the session as not found. -/
theorem getConversationHistory_unknown_session
    (activeContexts : List (String × ConversationContext)) (sessionId : String)
    (h : activeContexts.lookup sessionId = none) :
    getConversationHistory activeContexts sessionId =
      { success := true, sessionId := sessionId, history := []
        totalMessages := 0 } := by
  unfold getConversationHistory
  rw [h]

theorem getConversationHistory_unknown_session_witness :
    ([] : List (String × ConversationContext)).lookup "tutor-session-1" = none
    ∧ getConversationHistory [] "tutor-session-1" =
        { success := true, sessionId := "tutor-session-1", history := []
          totalMessages := 0 } :=
  ⟨rfl, getConversationHistory_unknown_session [] "tutor-session-1" rfl⟩

/-- C6: what POST /chat/session actually does.  The route table binds the
path to chatController.createSession, which is the unimplemented stub
answering 501 with a bare Not Implemented body (no success field, no data)
for every input, including the valid and the unsupported-language requests of
the claim; the separately implemented startChatSession handler, which is not
bound to any route, is the one that rejects language xx with 400 before any
session-creation call. -/
theorem chat_session_route_is_stub :
    chatPostRoute ["session"] = some ChatHandler.createSession
    ∧ createSession =
        (501, { message := some "Not Implemented" })
    ∧ createSession.2.success = none
    ∧ createSession.1 ≠ 201 ∧ createSession.1 ≠ 400
    ∧ startChatSession true (some "xx") none none =
        SessionOutcome.halt 400
          "Unsupported language. Supported languages: English (en), Hindi (hi), Punjabi (pa)" := by
  refine ⟨rfl, rfl, rfl, by decide, by decide, by decide⟩

/-- C1: the response bodies sent by grammarController.checkGrammar carry
success and message, but never a statusCode field, and the non-500 failure
paths carry no error field either: at the failing input (empty text, any
service outcome, development mode) the handler sends HTTP 400 with a body
whose statusCode and error keys are both absent while success is false; even
the 200 success body carries no statusCode. -/
theorem envelope_statusCode_never_sent :
    (checkGrammar { text := "" } (.ok {}) true).1 = 400
    ∧ (checkGrammar { text := "" } (.ok {}) true).2.success = some false
    ∧ (checkGrammar { text := "" } (.ok {}) true).2.message =
        some "Text is required for grammar checking."
    ∧ (checkGrammar { text := "" } (.ok {}) true).2.statusCode = none
    ∧ (checkGrammar { text := "" } (.ok {}) true).2.error = none
    ∧ (checkGrammar { text := "This are a test.", language := some "en" }
        (.ok { corrected := some "This is a test." }) true).1 = 200
    ∧ (checkGrammar { text := "This are a test.", language := some "en" }
        (.ok { corrected := some "This is a test." }) true).2.statusCode = none := by
  refine ⟨by decide, by decide, by decide, by decide, by decide, by decide, by decide⟩

/-- C2 fails on the code: there is no resolver on which a short code and the
matching full name agree.  ChatService.getLanguageCode maps the short code hi
to en (the silent default) while mapping the full name hindi to hi, and it
maps the unsupported string xx to en instead of failing. -/
theorem language_resolution_counterexample :
    getLanguageCode "hi" = "en"
    ∧ getLanguageCode "hindi" = "hi"
    ∧ getLanguageCode "hi" ≠ getLanguageCode "hindi"
    ∧ getLanguageCode "xx" = "en" := by
  refine ⟨by decide, by decide, by decide, by decide⟩

/-- C2 amended: the three resolvers behave per feature.  The chat service
resolver is total and maps every input to a supported short code, silently
defaulting unknown inputs (short codes included) to en; the controller table
and the chat table are mutually consistent (full name maps back to its short
code); the grammar service accepts exactly the full names, failing with its
Unsupported language message otherwise and succeeding on supported ones; and
the grammar controller turns any language whose lowercase form is not a short
code into the 400 response enumerating the supported languages, before any
service call. -/
theorem language_resolution_per_feature (input code full text language : String)
    (upstream : String) (svc : Except String LooseGrammarResult) (dev : Bool)
    (req : GrammarReq)
    (htext : (trimChars text.data).isEmpty = false)
    (hreq1 : req.validationOk = true)
    (hreq2 : (trimChars req.text.data).isEmpty = false)
    (hreq3 : req.text.data.length ≤ 5000) :
    (getLanguageCode input = "en" ∨ getLanguageCode input = "hi"
      ∨ getLanguageCode input = "pa")
    ∧ (languageMap code = some full → getLanguageCode full = code)
    ∧ (promptsHas (lowerStr language) = false →
        correctGrammar text language (.ok upstream) =
          .error ("Grammar correction failed: Unsupported language: " ++ language
            ++ ". Supported: hindi, punjabi, english"))
    ∧ (promptsHas (lowerStr language) = true →
        ∃ r, correctGrammar text language (.ok upstream) = .ok r)
    ∧ (supportedShortCodes.contains (lowerStr (req.language.getD "en")) = false →
        checkGrammar req svc dev =
          (400, { success := some false
                  message := some "Unsupported language. Supported languages: English (en), Hindi (hi), Punjabi (pa)" })) := by
  refine ⟨?_, ?_, ?_, ?_, ?_⟩
  · unfold getLanguageCode languageCodesLookup
    split_ifs <;> simp
  · intro h
    unfold languageMap at h
    split_ifs at h with h1 h2 h3 <;>
      (injection h with h; subst h) <;> subst_vars <;> rfl
  · intro h
    simp [correctGrammar, htext, h]
  · intro h
    simp only [correctGrammar, htext, h, Bool.not_true, Bool.false_eq_true, if_false]
    exact ⟨_, rfl⟩
  · intro h
    have h3 : ¬(5000 < req.text.data.length) := by omega
    have hmem : lowerStr (req.language.getD "en") ∉ supportedShortCodes := by
      intro hm
      simp only [supportedShortCodes, List.mem_cons, List.not_mem_nil, or_false] at hm
      rcases hm with hm | hm | hm <;> rw [hm] at h <;> exact absurd h (by decide)
    simp [checkGrammar, hreq1, hreq2, h3, hmem,
      show req.text.length ≤ 5000 from hreq3]

theorem language_resolution_per_feature_witness :
    (trimChars "some text".data).isEmpty = false
    ∧ (promptsHas (lowerStr "xx") = false →
        correctGrammar "some text" "xx" (.ok "raw output") =
          .error ("Grammar correction failed: Unsupported language: " ++ "xx"
            ++ ". Supported: hindi, punjabi, english")) :=
  ⟨by decide,
    (language_resolution_per_feature "HINDI" "pa" "punjabi" "some text" "xx"
      "raw output" (.ok {}) false { text := "also text" }
      (by decide) (by decide) (by decide) (by decide)).2.2.1⟩

/- C7 helpers -/

/-- When the batch item loop reports no failure, every item is valid. -/
theorem validateBatchItems_none_valid (ts : List String) :
    ∀ i : Nat, validateBatchItems ts i = none →
      ∀ t ∈ ts, (trimChars t.data).isEmpty = false ∧ t.data.length ≤ 2000 := by
  induction ts with
  | nil => intro i _ t ht; exact absurd ht (List.not_mem_nil t)
  | cons a rest ih =>
    intro i h t ht
    rw [validateBatchItems] at h
    by_cases h1 : (trimChars a.data).isEmpty
    · rw [if_pos h1] at h; exact absurd h (by simp)
    · rw [if_neg h1] at h
      by_cases h2 : 2000 < a.data.length
      · rw [if_pos h2] at h; exact absurd h (by simp)
      · rw [if_neg h2] at h
        rcases List.mem_cons.mp ht with rfl | hm
        · exact ⟨by simpa using h1, by omega⟩
        · exact ih (i + 1) h t hm

/-- A failure reported by the batch item loop carries its index in the
message text. -/
theorem validateBatchItems_some_msg (ts : List String) :
    ∀ i j : Nat, ∀ msg : String, validateBatchItems ts i = some (j, msg) →
      ∃ sfx : String, msg = "Text at index " ++ toString j ++ sfx := by
  induction ts with
  | nil => intro i j msg h; rw [validateBatchItems] at h; exact absurd h (by simp)
  | cons a rest ih =>
    intro i j msg h
    rw [validateBatchItems] at h
    by_cases h1 : (trimChars a.data).isEmpty
    · rw [if_pos h1] at h
      injection h with h
      injection h with hj hm
      exact ⟨" is empty or invalid", by rw [← hm, hj]⟩
    · rw [if_neg h1] at h
      by_cases h2 : 2000 < a.data.length
      · rw [if_pos h2] at h
        injection h with h
        injection h with hj hm
        exact ⟨" exceeds maximum length of 2000 characters for batch processing",
          by rw [← hm, hj]⟩
      · rw [if_neg h2] at h
        exact ih (i + 1) j msg h

/-- A string of the shape pre ++ mid ++ sfx contains mid. -/
theorem containsSub_of_middle (pre mid sfx : String) :
    containsSub (pre ++ mid ++ sfx) mid = true := by
  unfold containsSub
  rw [String.data_append, String.data_append, List.append_assoc]
  exact occursB_append_left _ _ _
    (occursB_of_isPrefixOf _ _ (isPrefixOf_append_self _ _))

/-- C7: batch grammar check bounds.  More than 20 texts is answered 400 with
the Maximum-20 message (whose text begins with the phrase quoted by the
claim) and the upstream service is never called; an empty or non-array texts
field is also rejected before any call; when the per-item loop reports an
invalid item, the handler stops with a 400 whose message names that index and
makes no upstream call; and the upstream service is only ever called with the
full, individually valid text list. -/
theorem batchGrammarCheck_validation (texts : List String)
    (language checkType : Option String) :
    (20 < texts.length →
      batchGrammarCheck true (some texts) language checkType =
        .halt 400 "Maximum 20 texts allowed for batch processing")
    ∧ containsSub "Maximum 20 texts allowed for batch processing"
        "Maximum 20 texts allowed" = true
    ∧ (batchGrammarCheck true (some []) language checkType =
        .halt 400 "Array of texts is required for batch processing")
    ∧ (batchGrammarCheck true none language checkType =
        .halt 400 "Array of texts is required for batch processing")
    ∧ (∀ i : Nat, ∀ msg : String, texts.length ≤ 20 →
        validateBatchItems texts 0 = some (i, msg) →
        batchGrammarCheck true (some texts) language checkType = .halt 400 msg
        ∧ containsSub msg (toString i) = true)
    ∧ (∀ ts lang ct, batchGrammarCheck true (some texts) language checkType =
        .callService ts lang ct →
        ts = texts ∧ ∀ t ∈ texts,
          (trimChars t.data).isEmpty = false ∧ t.data.length ≤ 2000) := by
    refine ⟨?_, by decide, by simp [batchGrammarCheck], by simp [batchGrammarCheck], ?_, ?_⟩
    · intro h
      have hne : texts.isEmpty = false := by
        cases texts
        · simp at h
        · rfl
      simp [batchGrammarCheck, hne, h]
    · intro i msg hlen hv
      have hne : texts.isEmpty = false := by
        cases texts
        · rw [validateBatchItems] at hv; exact absurd hv (by simp)
        · rfl
      have h20 : ¬ (20 < texts.length) := by omega
      constructor
      · simp [batchGrammarCheck, hne, h20, hv]
      · obtain ⟨sfx, hmsg⟩ := validateBatchItems_some_msg texts 0 i msg hv
        rw [hmsg]
        exact containsSub_of_middle "Text at index " (toString i) sfx
    · intro ts lang ct h
      unfold batchGrammarCheck at h
      simp only [Bool.not_true, Bool.false_eq_true, if_false] at h
      by_cases hne : texts.isEmpty
      · rw [if_pos hne] at h; exact absurd h (by simp)
      · rw [if_neg hne] at h
        by_cases h20 : 20 < texts.length
        · rw [if_pos h20] at h; exact absurd h (by simp)
        · rw [if_neg h20] at h
          cases hv : validateBatchItems texts 0 with
          | some p => rw [hv] at h; exact absurd h (by simp)
          | none =>
            rw [hv] at h
            injection h with h1 h2 h3
            exact ⟨h1.symm, validateBatchItems_none_valid texts 0 hv⟩

theorem batchGrammarCheck_validation_witness :
    20 < (List.replicate 21 "ok").length
    ∧ batchGrammarCheck true (some (List.replicate 21 "ok")) none none =
        .halt 400 "Maximum 20 texts allowed for batch processing" :=
  ⟨by decide,
    (batchGrammarCheck_validation (List.replicate 21 "ok") none none).1 (by decide)⟩

/- C8 -/

/-- C8 fails on the code as universally stated: each handler classifies the
caught message by substring tests in a fixed order, so a message that also
matches an earlier-checked pattern is not mapped to 429.  Concretely, the
chat handler answers 401 for a failure whose message contains the quota
signal but also the session-expired signal. -/
theorem quota_429_counterexample :
    containsSub "Chat service failed: session expired after quota exceeded"
      "quota exceeded" = true
    ∧ (chatCatch "Chat service failed: session expired after quota exceeded"
        false).1 = 401
    ∧ (chatCatch "Chat service failed: session expired after quota exceeded"
        false).1 ≠ 429 := by
  refine ⟨by decide, by decide, by decide⟩

/-- C8 amended: each handler maps a failure whose message carries the quota
signal to HTTP 429 with success false and a retry-later message, provided the
message matches none of the patterns that handler checks earlier (OCR checks
quota first, unconditionally; chat checks session-expired first; speech
checks the three audio patterns first; grammar lowercases and checks
unsupported-language first).  The classifier itself produces the final
response, so no retry of the upstream call occurs. -/
theorem quota_maps_to_429 (msg : String) (dev : Bool)
    (hq : containsSub msg "quota exceeded" = true)
    (hqg : containsSub (lowerStr msg) "quota" = true) :
    ((ocrCatch msg dev).1 = 429
      ∧ (ocrCatch msg dev).2.success = some false
      ∧ (ocrCatch msg dev).2.message =
          some "OCR service quota exceeded. Please try again later.")
    ∧ (containsSub msg "session expired" = false →
        (chatCatch msg dev).1 = 429
        ∧ (chatCatch msg dev).2.success = some false
        ∧ (chatCatch msg dev).2.message =
            some "Chat service quota exceeded. Please try again later.")
    ∧ (containsSub msg "audio too short" = false →
        containsSub msg "audio too long" = false →
        containsSub msg "no speech detected" = false →
        (speechCatch msg dev).1 = 429
        ∧ (speechCatch msg dev).2.success = some false
        ∧ (speechCatch msg dev).2.message =
            some "Speech evaluation quota exceeded. Please try again later.")
    ∧ (containsSub (lowerStr msg) "unsupported language" = false →
        grammarCatch msg dev =
          (429, { success := some false
                  message := some "Grammar check quota exceeded. Please try again later." })) := by
  refine ⟨?_, ?_, ?_, ?_⟩
  · simp [ocrCatch, hq]
  · intro h1
    simp [chatCatch, hq, h1]
  · intro h1 h2 h3
    simp [speechCatch, hq, h1, h2, h3]
  · intro h1
    simp [grammarCatch, hqg, h1]

theorem quota_maps_to_429_witness :
    containsSub "Gemini API quota exceeded" "quota exceeded" = true
    ∧ containsSub (lowerStr "Gemini API quota exceeded") "quota" = true
    ∧ ((ocrCatch "Gemini API quota exceeded" false).1 = 429
        ∧ (ocrCatch "Gemini API quota exceeded" false).2.success = some false
        ∧ (ocrCatch "Gemini API quota exceeded" false).2.message =
            some "OCR service quota exceeded. Please try again later.") :=
  ⟨by decide, by decide,
    (quota_maps_to_429 "Gemini API quota exceeded" false (by decide) (by decide)).1⟩

/- C4 -/

/-- toFixed(2) followed by parseFloat is the identity on integer values: no
clamping happens on the way. -/
theorem round2_intCast (n : ℤ) : round2 ((n : ℚ)) = (n : ℚ) := by
  rw [round2]
  rw [show ((n : ℚ) * 100 + 1 / 2) = ((100 * n : ℤ) : ℚ) + (1 / 2 : ℚ) by
    push_cast; ring]
  rw [Int.floor_int_add, show ⌊(1 / 2 : ℚ)⌋ = 0 by
    rw [Int.floor_eq_iff] <;> norm_num]
  push_cast
  field_simp

/-- C4 fails on the code: the OCR adapter does not clamp or default an
out-of-range upstream confidence.  At the concrete upstream value -5 the
normalized confidence is -5: a negative value, outside both documented
bounds, is propagated to the caller. -/
theorem confidence_clamping_counterexample :
    ocrConfidence (.num (-5)) = some (-5)
    ∧ ((-5 : ℚ) < 0) ∧ ¬((0 : ℚ) ≤ -5 ∧ (-5 : ℚ) ≤ 100) := by
  refine ⟨?_, by norm_num, by norm_num⟩
  show some (round2 (-5)) = some (-5)
  rw [show ((-5 : ℚ)) = (((-5 : ℤ) : ℚ)) by norm_num, round2_intCast]

/-- C4 amended: only the grammar adapter bounds its confidence, via the
Math.max/Math.min clamp, so its value always lies in [0, 1] (the nonempty
original keeps the computation NaN-free; the empty-text case cannot reach it
because correctGrammar rejects empty input first).  The OCR adapter only
defaults NaN to null and otherwise passes the upstream value through after
two-decimal rounding, so any integer value, in range or not, survives
unchanged; the speech adapter passes every upstream confidence through
completely unmodified, per word and per segment. -/
theorem confidence_normalization_amended (original corrected : String)
    (n : Int) (w : SpeechWordIn) (alts : List SpeechAltIn)
    (horig : original.data ≠ []) :
    (0 ≤ calculateConfidence original corrected
      ∧ calculateConfidence original corrected ≤ 1)
    ∧ ocrConfidence .nan = none
    ∧ ocrConfidence (.num (n : ℚ)) = some (n : ℚ)
    ∧ (normalizeSpeechWord w).confidence = w.confidence
    ∧ (normalizeTranscription alts).map (fun a => a.confidence) =
        (alts.filter (fun a => a.transcript ≠ "")).map (fun a => a.confidence) := by
  refine ⟨⟨?_, ?_⟩, rfl, ?_, rfl, ?_⟩
  · exact le_max_left 0 _
  · exact max_le (by norm_num) (min_le_left 1 _)
  · show some (round2 (n : ℚ)) = some (n : ℚ)
    rw [round2_intCast]
  · unfold normalizeTranscription
    rw [List.map_map]
    rfl

theorem confidence_normalization_amended_witness :
    "This are a test.".data ≠ []
    ∧ (0 ≤ calculateConfidence "This are a test." "This is a test."
        ∧ calculateConfidence "This are a test." "This is a test." ≤ 1) :=
  ⟨by decide,
    (confidence_normalization_amended "This are a test." "This is a test." 7
      { word := "hi", confidence := .nan } [] (by decide)).1⟩

/- C5 helpers: the last-50 window as List.rtake -/

/-- rtake keeps a short list whole. -/
theorem rtake_of_length_le (l : List ChatMessageEntry) (n : Nat)
    (h : l.length ≤ n) : l.rtake n = l := by
  unfold List.rtake
  rw [Nat.sub_eq_zero_of_le h, List.drop_zero]

/-- rtake never returns more than n elements. -/
theorem length_rtake_le (l : List ChatMessageEntry) (n : Nat) :
    (l.rtake n).length ≤ n := by
  unfold List.rtake
  rw [List.length_drop]
  omega

/-- Taking n after appending to an n-truncation equals taking n after
appending to the original. -/
theorem take_append_take (n : Nat) (xs ys : List ChatMessageEntry) :
    (xs ++ ys.take n).take n = (xs ++ ys).take n := by
  rw [List.take_append_eq_append_take, List.take_append_eq_append_take,
    List.take_take]
  congr 1
  exact congrArg (fun k => List.take k ys) (min_eq_left (Nat.sub_le n xs.length))

/-- The last-n window absorbs an earlier truncation. -/
theorem rtake_append_rtake (n : Nat) (l m : List ChatMessageEntry) :
    (l.rtake n ++ m).rtake n = (l ++ m).rtake n := by
  rw [List.rtake_eq_reverse_take_reverse, List.rtake_eq_reverse_take_reverse,
    List.rtake_eq_reverse_take_reverse]
  rw [List.reverse_append, List.reverse_reverse, List.reverse_append]
  congr 1
  exact take_append_take n m.reverse l.reverse

/-- One context update appends the entry and keeps the last-50 window. -/
theorem updateConversationContext_messages (ctx : ConversationContext)
    (e : ChatMessageEntry) :
    (updateConversationContext ctx e).messages =
      (ctx.messages ++ [e]).rtake 50 := by
  unfold updateConversationContext
  by_cases h : 50 < (ctx.messages ++ [e]).length
  · simp only [h, if_true]
    rfl
  · simp only [h, if_false]
    rw [List.rtake, Nat.sub_eq_zero_of_le (Nat.le_of_not_lt h), List.drop_zero]

/-- Folding updates over a message sequence keeps exactly the last-50 window
of the accumulated history. -/
theorem foldl_update_messages (es : List ChatMessageEntry) :
    ∀ ctx : ConversationContext, ctx.messages.length ≤ 50 →
      (es.foldl updateConversationContext ctx).messages =
        (ctx.messages ++ es).rtake 50 := by
  induction es with
  | nil =>
    intro ctx h
    rw [List.foldl_nil, List.append_nil, rtake_of_length_le _ _ h]
  | cons e es ih =>
    intro ctx h
    rw [List.foldl_cons]
    have hlen : (updateConversationContext ctx e).messages.length ≤ 50 := by
      rw [updateConversationContext_messages]
      exact length_rtake_le _ _
    rw [ih _ hlen, updateConversationContext_messages, rtake_append_rtake]
    rw [List.append_assoc, List.singleton_append]

/-- The subjects component of one context update. -/
theorem updateConversationContext_subjects (ctx : ConversationContext)
    (e : ChatMessageEntry) :
    (updateConversationContext ctx e).subjects =
      match e.subject with
      | some s => if ctx.subjects.contains s then ctx.subjects
                  else ctx.subjects ++ [s]
      | none => ctx.subjects := rfl

/-- Folding updates preserves deduplication of the subject list. -/
theorem foldl_update_subjects_nodup (es : List ChatMessageEntry) :
    ∀ ctx : ConversationContext, ctx.subjects.Nodup →
      (es.foldl updateConversationContext ctx).subjects.Nodup := by
  induction es with
  | nil => intro ctx h; exact h
  | cons e es ih =>
    intro ctx h
    rw [List.foldl_cons]
    apply ih
    rw [updateConversationContext_subjects]
    cases hs : e.subject with
    | none => exact h
    | some s =>
      dsimp only
      by_cases hc : ctx.subjects.contains s = true
      · rw [if_pos hc]
        exact h
      · rw [if_neg hc]
        rw [List.nodup_append]
        refine ⟨h, List.nodup_singleton s, ?_⟩
        intro a ha hb
        rw [List.mem_singleton] at hb
        subst hb
        exact hc (List.elem_eq_true_of_mem ha)

/-- C5: starting from a fresh context, after any sequence of appends the
stored history is exactly the last-50 window of the appended entries, in
arrival order; hence it never holds more than 50 entries, after 60 appends
exactly entries 11..60 remain, and the recorded subjects stay free of
duplicates. -/
theorem chat_context_window (sid : String) (es : List ChatMessageEntry) :
    (es.foldl updateConversationContext (createNewContext sid)).messages =
      es.rtake 50
    ∧ (es.foldl updateConversationContext (createNewContext sid)).messages.length ≤ 50
    ∧ (es.length = 60 →
        (es.foldl updateConversationContext (createNewContext sid)).messages =
          es.drop 10)
    ∧ (es.foldl updateConversationContext (createNewContext sid)).subjects.Nodup := by
  have h1 := foldl_update_messages es (createNewContext sid)
    (by simp [createNewContext])
  rw [show (createNewContext sid).messages = [] from rfl, List.nil_append] at h1
  refine ⟨h1, ?_, ?_, ?_⟩
  · rw [h1]; exact length_rtake_le _ _
  · intro h60
    rw [h1]
    unfold List.rtake
    rw [h60]
  · refine foldl_update_subjects_nodup es _ ?_
    rw [show (createNewContext sid).subjects = [] from rfl]
    exact List.nodup_nil

theorem chat_context_window_witness :
    (List.replicate 60
        ({ userMessage := "m", botResponse := "r", intent := "i",
           confidence := 1 } : ChatMessageEntry)).length = 60
    ∧ ((List.replicate 60
        ({ userMessage := "m", botResponse := "r", intent := "i",
           confidence := 1 } : ChatMessageEntry)).foldl updateConversationContext
          (createNewContext "s1")).messages =
        (List.replicate 60
          ({ userMessage := "m", botResponse := "r", intent := "i",
             confidence := 1 } : ChatMessageEntry)).drop 10 :=
  ⟨by decide,
    (chat_context_window "s1" (List.replicate 60
      { userMessage := "m", botResponse := "r", intent := "i",
        confidence := 1 })).2.2.1 (by decide)⟩

/- C3 -/

/-- C3 fails on the code: when the CORRECTED: label is absent the parser does
not default the corrected field to empty; it falls back to the whole trimmed
raw block, and the controller surfaces that raw block to the caller as
data.correctedText.  Shown at a concrete unlabelled model output flowing
through correctGrammar into checkGrammar. -/
theorem raw_block_surfaced_counterexample :
    parseGrammarResponse "Here is the corrected version." =
      { corrected := "Here is the corrected version.", changes := []
        suggestions := [] }
    ∧ (checkGrammar { text := "helo wrld", language := some "en" }
        (correctGrammar "helo wrld" "english"
          (.ok "Here is the corrected version.")) false).2.data.map
        (fun d => d.correctedText) = some "Here is the corrected version." := by
  refine ⟨by decide, by decide⟩

/-- C3 amended: the CHANGES and SUGGESTIONS sections do default to empty
lists when their labels are absent, but an absent CORRECTED section makes the
parser return the whole trimmed raw response as the corrected text, and on
the success path the controller surfaces whatever nonempty corrected string
the service produced as data.correctedText. -/
theorem parse_sections_amended (response : String) :
    (findLabel "CHANGES:".data response.data = none →
      (parseGrammarResponse response).changes = [])
    ∧ (findLabel "SUGGESTIONS:".data response.data = none →
      (parseGrammarResponse response).suggestions = [])
    ∧ (findLabel "CORRECTED:".data response.data = none →
      (parseGrammarResponse response).corrected = trimStr response)
    ∧ (∀ req : GrammarReq, ∀ r : LooseGrammarResult, ∀ dev : Bool, ∀ c : String,
        req.validationOk = true → (trimChars req.text.data).isEmpty = false →
        req.text.data.length ≤ 5000 →
        supportedShortCodes.contains (lowerStr (req.language.getD "en")) = true →
        supportedCheckTypes.contains (req.checkType.getD "comprehensive") = true →
        r.corrected = some c → c ≠ "" →
        (checkGrammar req (.ok r) dev).2.data.map (fun d => d.correctedText) =
          some c) := by
  refine ⟨?_, ?_, ?_, ?_⟩
  · intro h
    simp [parseGrammarResponse, h]
  · intro h
    simp [parseGrammarResponse, h]
  · intro h
    simp [parseGrammarResponse, h, trimStr]
  · intro req r dev c h1 h2 h3 h4 h5 hc hcne
    have h3' : ¬ (5000 < req.text.data.length) := by omega
    have hmem : lowerStr (req.language.getD "en") ∈ supportedShortCodes :=
      List.mem_of_elem_eq_true h4
    have hmem5 : req.checkType.getD "comprehensive" ∈ supportedCheckTypes :=
      List.mem_of_elem_eq_true h5
    obtain ⟨f, hf⟩ : ∃ f, languageMap (lowerStr (req.language.getD "en")) = some f := by
      simp only [supportedShortCodes, List.mem_cons, List.not_mem_nil,
        or_false] at hmem
      rcases hmem with hm | hm | hm <;> rw [hm] <;> exact ⟨_, rfl⟩
    simp only [checkGrammar, h1, h2, h3', hmem, hmem5, hf, hc, jsOrS, hcne,
      show ¬ (5000 < req.text.length) from h3', Bool.not_true,
      Bool.false_eq_true, if_false, if_true, decide_eq_true_eq, if_neg,
      Option.map_some, Bool.true_eq_false]
    simp [hcne, h2, show ¬ (5000 < req.text.length) from h3', hmem, hmem5, hf, hc]

theorem parse_sections_amended_witness :
    findLabel "CHANGES:".data "no labels at all".data = none
    ∧ (parseGrammarResponse "no labels at all").changes = [] :=
  ⟨by decide, (parse_sections_amended "no labels at all").1 (by decide)⟩

/- C9 helpers -/

/-- Unpack a sectionOk conjunction. -/
theorem sectionOk_parts (x : List Char) (h : sectionOk x = true) :
    x ≠ [] ∧ trimChars x = x := by
  rw [sectionOk, Bool.and_eq_true] at h
  refine ⟨?_, ?_⟩
  · intro hx
    rw [hx] at h
    simp at h
  · exact eq_of_beq h.2

/-- A trim-fixed nonempty section starts with a non-whitespace character. -/
theorem section_head (x : List Char) (hne : x ≠ []) (ht : trimChars x = x) :
    ∃ a x', x = a :: x' ∧ wsB a = false := by
  obtain ⟨hd, _⟩ := trimChars_eq_self_parts x ht
  cases x with
  | nil => exact absurd rfl hne
  | cons a x' => exact ⟨a, x', rfl, head_false_of_dropWhile_eq wsB a x' hd⟩

/-- Skipping whitespace after a label: one space, then a trim-fixed section
stays put. -/
theorem dropWhile_space_section (x w : List Char) (hne : x ≠ [])
    (ht : trimChars x = x) :
    List.dropWhile wsB (' ' :: (x ++ w)) = x ++ w := by
  obtain ⟨a, x', hx, haw⟩ := section_head x hne ht
  rw [List.dropWhile_cons]
  rw [show wsB ' ' = true from rfl, if_pos rfl, hx]
  exact dropWhile_append_of_head_false wsB a x' w haw

/-- keepNonBlank keeps every line of a blank-free section. -/
theorem keepNonBlank_eq_self (l : List Char) (h : noBlankLines l = true) :
    keepNonBlank (splitNl l) = splitNl l := by
  rw [keepNonBlank, List.filter_eq_self]
  intro a ha
  rw [noBlankLines, List.all_eq_true] at h
  exact h a ha

/-- Re-joining the split lines of a string restores it. -/
theorem joinLines_splitNl (x : String) :
    joinLines ((splitNl x.data).map String.mk) = x := by
  unfold joinLines
  rw [List.map_map]
  rw [show (String.data ∘ String.mk) = id from rfl, List.map_id]
  rw [joinNl_splitNl]

/-- Parsing a well-formed serialized block recovers the three sections (the
changes and suggestions still split into their lines). -/
theorem parse_serialized (c ch s : String)
    (hc : sectionOk c.data = true) (hch : sectionOk ch.data = true)
    (hs : sectionOk s.data = true)
    (h1 : occursB "CHANGES:".data c.data = false)
    (h2 : occursB "SUGGESTIONS:".data c.data = false)
    (h3 : occursB "SUGGESTIONS:".data ch.data = false) :
    parseGrammarResponse (serializeGrammar c ch s) =
      { corrected := c
        changes := (keepNonBlank (splitNl ch.data)).map String.mk
        suggestions := (keepNonBlank (splitNl s.data)).map String.mk } := by
  obtain ⟨hcne, hctrim⟩ := sectionOk_parts c.data hc
  obtain ⟨hchne, hchtrim⟩ := sectionOk_parts ch.data hch
  obtain ⟨hsne, hstrim⟩ := sectionOk_parts s.data hs
  have hr : (serializeGrammar c ch s).data
      = "CORRECTED:".data ++ (' ' :: (c.data ++ '\n' ::
          ("CHANGES:".data ++ (' ' :: (ch.data ++ '\n' ::
            ("SUGGESTIONS:".data ++ (' ' :: s.data))))))) := by
    simp only [serializeGrammar, String.data_append, List.append_assoc]
    rfl
  -- the three label positions
  have eCOR : findLabel "CORRECTED:".data (serializeGrammar c ch s).data
      = some (' ' :: (c.data ++ '\n' ::
          ("CHANGES:".data ++ (' ' :: (ch.data ++ '\n' ::
            ("SUGGESTIONS:".data ++ (' ' :: s.data))))))) := by
    rw [hr, findLabel_of_isPrefixOf _ _ (by decide) (isPrefixOf_append_self _ _),
      List.drop_left]
  have hstCH : startsIn "CHANGES:".data (c.data ++ ['\n'])
      ("CHANGES:".data ++ (' ' :: (ch.data ++ '\n' ::
        ("SUGGESTIONS:".data ++ (' ' :: s.data))))) = false :=
    startsIn_eq_false_of_not_occurs _ (by decide) (by decide) _ _ h1
  have eCH : findLabel "CHANGES:".data (serializeGrammar c ch s).data
      = some (' ' :: (ch.data ++ '\n' ::
          ("SUGGESTIONS:".data ++ (' ' :: s.data)))) := by
    rw [hr]
    rw [show "CORRECTED:".data ++ (' ' :: (c.data ++ '\n' ::
        ("CHANGES:".data ++ (' ' :: (ch.data ++ '\n' ::
          ("SUGGESTIONS:".data ++ (' ' :: s.data)))))))
      = ("CORRECTED: ".data ++ (c.data ++ ['\n'])) ++
          ("CHANGES:".data ++ (' ' :: (ch.data ++ '\n' ::
            ("SUGGESTIONS:".data ++ (' ' :: s.data))))) by simp]
    rw [findLabel_append_of_startsIn_false _ _ _ (by
      rw [startsIn_append]
      rw [show (startsIn "CHANGES:".data "CORRECTED: ".data
          ((c.data ++ ['\n']) ++ ("CHANGES:".data ++ (' ' :: (ch.data ++ '\n' ::
            ("SUGGESTIONS:".data ++ (' ' :: s.data))))))) = false from rfl]
      rw [hstCH]
      rfl)]
    rw [findLabel_of_isPrefixOf _ _ (by decide) (isPrefixOf_append_self _ _),
      List.drop_left]
  have hstSUGc : startsIn "SUGGESTIONS:".data (c.data ++ ['\n'])
      ("CHANGES: ".data ++ ((ch.data ++ ['\n']) ++
        ("SUGGESTIONS:".data ++ (' ' :: s.data)))) = false :=
    startsIn_eq_false_of_not_occurs _ (by decide) (by decide) _ _ h2
  have hstSUGch : startsIn "SUGGESTIONS:".data (ch.data ++ ['\n'])
      ("SUGGESTIONS:".data ++ (' ' :: s.data)) = false :=
    startsIn_eq_false_of_not_occurs _ (by decide) (by decide) _ _ h3
  have eSUG : findLabel "SUGGESTIONS:".data (serializeGrammar c ch s).data
      = some (' ' :: s.data) := by
    rw [hr]
    rw [show "CORRECTED:".data ++ (' ' :: (c.data ++ '\n' ::
        ("CHANGES:".data ++ (' ' :: (ch.data ++ '\n' ::
          ("SUGGESTIONS:".data ++ (' ' :: s.data)))))))
      = ("CORRECTED: ".data ++ ((c.data ++ ['\n']) ++ ("CHANGES: ".data ++
          (ch.data ++ ['\n'])))) ++ ("SUGGESTIONS:".data ++ (' ' :: s.data))
        by simp]
    rw [findLabel_append_of_startsIn_false _ _ _ (by
      rw [startsIn_append]
      rw [show startsIn "SUGGESTIONS:".data "CORRECTED: ".data
          (((c.data ++ ['\n']) ++ ("CHANGES: ".data ++ (ch.data ++ ['\n']))) ++
            ("SUGGESTIONS:".data ++ (' ' :: s.data))) = false from rfl]
      rw [startsIn_append]
      rw [show startsIn "SUGGESTIONS:".data (c.data ++ ['\n'])
          (("CHANGES: ".data ++ (ch.data ++ ['\n'])) ++
            ("SUGGESTIONS:".data ++ (' ' :: s.data)))
        = startsIn "SUGGESTIONS:".data (c.data ++ ['\n'])
          ("CHANGES: ".data ++ ((ch.data ++ ['\n']) ++
            ("SUGGESTIONS:".data ++ (' ' :: s.data)))) by rw [List.append_assoc]]
      rw [hstSUGc]
      rw [startsIn_append]
      rw [show startsIn "SUGGESTIONS:".data "CHANGES: ".data
          ((ch.data ++ ['\n']) ++ ("SUGGESTIONS:".data ++ (' ' :: s.data)))
          = false from rfl]
      rw [hstSUGch]
      rfl)]
    rw [findLabel_of_isPrefixOf _ _ (by decide) (isPrefixOf_append_self _ _),
      List.drop_left]
  -- the three field computations
  have fCOR : trimChars (captureUntil "CHANGES:".data (List.dropWhile wsB
      (' ' :: (c.data ++ '\n' :: ("CHANGES:".data ++ (' ' :: (ch.data ++ '\n' ::
        ("SUGGESTIONS:".data ++ (' ' :: s.data))))))))) = c.data := by
    rw [show c.data ++ '\n' :: ("CHANGES:".data ++ (' ' :: (ch.data ++ '\n' ::
        ("SUGGESTIONS:".data ++ (' ' :: s.data)))))
      = c.data ++ (['\n'] ++ ("CHANGES:".data ++ (' ' :: (ch.data ++ '\n' ::
        ("SUGGESTIONS:".data ++ (' ' :: s.data)))))) by simp]
    rw [dropWhile_space_section c.data _ hcne hctrim]
    rw [show c.data ++ (['\n'] ++ ("CHANGES:".data ++ (' ' :: (ch.data ++ '\n' ::
        ("SUGGESTIONS:".data ++ (' ' :: s.data))))))
      = (c.data ++ ['\n']) ++ ("CHANGES:".data ++ (' ' :: (ch.data ++ '\n' ::
        ("SUGGESTIONS:".data ++ (' ' :: s.data))))) by simp]
    rw [captureUntil_append_of_startsIn_false _ _ _ hstCH]
    rw [captureUntil_of_isPrefixOf _ _ (isPrefixOf_append_self _ _), List.append_nil]
    exact trimChars_append_nl c.data hcne hctrim
  have fCH : trimChars (captureUntil "SUGGESTIONS:".data (List.dropWhile wsB
      (' ' :: (ch.data ++ '\n' :: ("SUGGESTIONS:".data ++ (' ' :: s.data))))))
      = ch.data := by
    rw [show ch.data ++ '\n' :: ("SUGGESTIONS:".data ++ (' ' :: s.data))
      = ch.data ++ (['\n'] ++ ("SUGGESTIONS:".data ++ (' ' :: s.data))) by simp]
    rw [dropWhile_space_section ch.data _ hchne hchtrim]
    rw [show ch.data ++ (['\n'] ++ ("SUGGESTIONS:".data ++ (' ' :: s.data)))
      = (ch.data ++ ['\n']) ++ ("SUGGESTIONS:".data ++ (' ' :: s.data)) by simp]
    rw [captureUntil_append_of_startsIn_false _ _ _ hstSUGch]
    rw [captureUntil_of_isPrefixOf _ _ (isPrefixOf_append_self _ _), List.append_nil]
    exact trimChars_append_nl ch.data hchne hchtrim
  have fSUG : trimChars (List.dropWhile wsB (' ' :: s.data)) = s.data := by
    rw [show (' ' :: s.data) = (' ' :: (s.data ++ [])) by simp]
    rw [dropWhile_space_section s.data [] hsne hstrim]
    rw [List.append_nil]
    exact hstrim
  rw [parseGrammarResponse]
  rw [eCOR, eCH, eSUG]
  dsimp only
  rw [fCOR, fCH, fSUG]

/-- C9: parse then serialize is the identity on well-formed model output:
for every well-formed section triple, parsing the serialized
CORRECTED/CHANGES/SUGGESTIONS block and re-serializing the extracted fields
into the same template reproduces the block verbatim (and the corrected
section is recovered exactly). -/
theorem grammar_roundtrip (c ch s : String)
    (h : wellFormedSections c ch s = true) :
    serializeGrammar
        (parseGrammarResponse (serializeGrammar c ch s)).corrected
        (joinLines (parseGrammarResponse (serializeGrammar c ch s)).changes)
        (joinLines (parseGrammarResponse (serializeGrammar c ch s)).suggestions)
      = serializeGrammar c ch s
    ∧ (parseGrammarResponse (serializeGrammar c ch s)).corrected = c := by
  rw [wellFormedSections] at h
  simp only [Bool.and_eq_true, Bool.not_eq_true'] at h
  obtain ⟨⟨⟨⟨⟨⟨⟨hc, hch⟩, hs⟩, h1⟩, h2⟩, h3⟩, hb1⟩, hb2⟩ := h
  have hp := parse_serialized c ch s hc hch hs h1 h2 h3
  rw [hp]
  rw [keepNonBlank_eq_self ch.data hb1, keepNonBlank_eq_self s.data hb2]
  rw [joinLines_splitNl, joinLines_splitNl]
  exact ⟨rfl, rfl⟩

theorem grammar_roundtrip_witness :
    wellFormedSections "This is a sample text."
        "1. Changed are to is.\n2. Fixed a typo." "Keep sentences short." = true
    ∧ serializeGrammar
        (parseGrammarResponse (serializeGrammar "This is a sample text."
          "1. Changed are to is.\n2. Fixed a typo." "Keep sentences short.")).corrected
        (joinLines (parseGrammarResponse (serializeGrammar "This is a sample text."
          "1. Changed are to is.\n2. Fixed a typo." "Keep sentences short.")).changes)
        (joinLines (parseGrammarResponse (serializeGrammar "This is a sample text."
          "1. Changed are to is.\n2. Fixed a typo." "Keep sentences short.")).suggestions)
      = serializeGrammar "This is a sample text."
          "1. Changed are to is.\n2. Fixed a typo." "Keep sentences short." :=
  ⟨by decide,
    (grammar_roundtrip "This is a sample text."
      "1. Changed are to is.\n2. Fixed a typo." "Keep sentences short."
      (by decide)).1⟩

end EdTech
